import Mathlib

/-!
Verification of pipenode.py, the diffusion-MRI batch pipeline of the
APSS-Tractography repository.  The pipeline stages are shallowly embedded:
pure numerical steps become Lean functions over the real numbers, and the
file-system effects of a stage become explicit transformations of a small
file-system state.  External collaborators (the dipy tracking engine, the
DICOM converter, the configuration module) are embedded as parameters or
are modelled from the specification where their code is not part of the
repository source.
-/

namespace APSS

/-! ## Streamline geometry

A streamline is an ordered polyline of 3-D points.  The length function of
dipy.tracking.metrics sums the Euclidean norms of consecutive point
differences; a streamline with fewer than two points has length zero. -/

abbrev Point : Type := ℝ × ℝ × ℝ

abbrev Streamline : Type := List Point

/-- Euclidean distance between two 3-D points, the per-segment term of the
dipy length function. -/
noncomputable def seg_length (p q : Point) : ℝ :=
  Real.sqrt ((p.1 - q.1) ^ 2 + (p.2.1 - q.2.1) ^ 2 + (p.2.2 - q.2.2) ^ 2)

/-- Arc length of a streamline: the sum of consecutive point-to-point
Euclidean distances, as computed by the length function of
dipy.tracking.metrics used at pipenode.py line 242. -/
noncomputable def stream_length : Streamline → ℝ
  | p :: q :: rest => seg_length p q + stream_length (q :: rest)
  | _ => 0

/-- The length filter applied by compute_tracking (pipenode.py lines
241-242): a streamline is kept when its arc length is strictly greater
than the configured minimum and strictly less than the configured
maximum. -/
noncomputable def length_filter (minL maxL : ℝ) : List Streamline → List Streamline
  | [] => []
  | sl :: rest =>
      if minL < stream_length sl ∧ stream_length sl < maxL then
        sl :: length_filter minL maxL rest
      else
        length_filter minL maxL rest

/-- Claim C5: a streamline is retained by the tracking length filter if and
only if its arc length is strictly greater than the configured minimum and
strictly less than the configured maximum; equality with either bound
excludes the streamline. -/
theorem length_filter_retains_iff_strictly_between (minL maxL : ℝ)
    (sls : List Streamline) (sl : Streamline) :
    sl ∈ length_filter minL maxL sls ↔
      sl ∈ sls ∧ minL < stream_length sl ∧ stream_length sl < maxL := by
  induction sls with
  | nil => simp [length_filter]
  | cons a rest ih =>
    by_cases h : minL < stream_length a ∧ stream_length a < maxL
    · rw [length_filter, if_pos h]
      simp only [List.mem_cons, ih]
      constructor
      · rintro (rfl | ⟨hm, hp⟩)
        · exact ⟨Or.inl rfl, h⟩
        · exact ⟨Or.inr hm, hp⟩
      · rintro ⟨rfl | hm, hp⟩
        · exact Or.inl rfl
        · exact Or.inr ⟨hm, hp⟩
    · rw [length_filter, if_neg h]
      rw [ih]
      simp only [List.mem_cons]
      constructor
      · rintro ⟨hm, hp⟩
        exact ⟨Or.inr hm, hp⟩
      · rintro ⟨rfl | hm, hp⟩
        · exact absurd hp h
        · exact ⟨hm, hp⟩

/-! ## Streamline tracking (compute_tracking, pipenode.py lines 210-250)

The numerical tracking engine is external library code (dipy).  Modelled
from the spec: the spec states that streamline propagation is deterministic
with no randomized seeding, so the engine is embedded as a pure function of
the FA volume, the quantized peak-index field, the seed count, the
orientation sphere and the anisotropy threshold.  The sphere lookup of
get_sphere is likewise a pure function of the sphere name. -/

structure TrackingEngine where
  get_sphere : String → List Point
  quantize_evecs : List Point → List Point → List ℕ
  eudx : List ℝ → List ℕ → ℕ → List Point → ℝ → List Streamline

/-- The two artifacts persisted by compute_tracking: the streamlines
written to the trackvis (.trk) file and the tracks written to the
serialized-tracks (.dpy) container. -/
structure TrackingResult where
  trk : List Streamline
  dpy : List Streamline

/-- Shallow embedding of the streamline-persisting core of compute_tracking
(pipenode.py lines 221-250): the sphere is the fixed symmetric724 sphere,
the eigenvector field is quantized against it, the engine produces the
streamlines, the .trk file receives the generator filtered by the length
bounds (lines 241-242) and the .dpy container receives the plain list
comprehension over the streamlines (line 246), which carries no filter. -/
noncomputable def compute_tracking (e : TrackingEngine) (FA : List ℝ)
    (evecs : List Point) (seeds : ℕ) (aLow minL maxL : ℝ) : TrackingResult :=
  let sphere := e.get_sphere "symmetric724"
  let peak_indices := e.quantize_evecs evecs sphere
  let streamlines := e.eudx FA peak_indices seeds sphere aLow
  { trk := length_filter minL maxL streamlines
    dpy := streamlines }

/-- A one-segment streamline of arc length one, used as concrete input. -/
noncomputable def sl_unit : Streamline := [((0 : ℝ), 0, 0), (1, 0, 0)]

/-- A concrete engine that always produces the single streamline sl_unit. -/
noncomputable def const_engine : TrackingEngine :=
  { get_sphere := fun _ => []
    quantize_evecs := fun _ _ => []
    eudx := fun _ _ _ _ _ => [sl_unit] }

theorem stream_length_sl_unit : stream_length sl_unit = 1 := by
  show stream_length [((0 : ℝ), 0, 0), (1, 0, 0)] = 1
  simp only [stream_length, seg_length]
  norm_num

/-- Claim C1 (counterexample): with a configured filter of bounds (2, 100)
and a run producing the single streamline sl_unit of arc length 1, the
.trk file receives no streamline while the .dpy container receives
sl_unit, so the two persisted streamline sets are not equal and the .dpy
set is not the filtered set. -/
theorem trk_dpy_sets_differ_on_short_streamline :
    (compute_tracking const_engine [] [] 8 0 2 100).dpy ≠
      (compute_tracking const_engine [] [] 8 0 2 100).trk ∧
    sl_unit ∈ (compute_tracking const_engine [] [] 8 0 2 100).dpy ∧
    sl_unit ∉ (compute_tracking const_engine [] [] 8 0 2 100).trk := by
  have hneg : ¬ ((2 : ℝ) < stream_length sl_unit ∧ stream_length sl_unit < 100) := by
    rw [stream_length_sl_unit]
    rintro ⟨h2, _⟩
    norm_num at h2
  have hct : compute_tracking const_engine [] [] 8 0 2 100 =
      { trk := [], dpy := [sl_unit] } := by
    show TrackingResult.mk (length_filter 2 100 [sl_unit]) [sl_unit] =
      TrackingResult.mk [] [sl_unit]
    rw [length_filter, if_neg hneg, length_filter]
  rw [hct]
  refine ⟨by simp, by simp, by simp⟩

/-- Claim C1 (amended): compute_tracking persists to the .dpy container
every streamline produced by the tracking engine, with no length filter,
while the .trk file receives exactly the streamlines of the .dpy set that
pass the strict length filter; the two persisted sets therefore agree only
when every produced streamline passes the filter. -/
theorem compute_tracking_trk_is_filtered_dpy (e : TrackingEngine) (FA : List ℝ)
    (evecs : List Point) (seeds : ℕ) (aLow minL maxL : ℝ) :
    (compute_tracking e FA evecs seeds aLow minL maxL).dpy =
      e.eudx FA (e.quantize_evecs evecs (e.get_sphere "symmetric724")) seeds
        (e.get_sphere "symmetric724") aLow ∧
    (compute_tracking e FA evecs seeds aLow minL maxL).trk =
      length_filter minL maxL (compute_tracking e FA evecs seeds aLow minL maxL).dpy :=
  ⟨rfl, rfl⟩

/-- Claim C6: two runs of compute_tracking over the same engine with
identical FA and eigenvector inputs, the same seed count and the same
anisotropy and length thresholds produce identical persisted streamline
sets, in count, point sequences and order.  The external engine is
modelled as a pure function of its inputs, as the spec requires of it (no
randomized seeding), and both runs use the same fixed symmetric724
sphere. -/
theorem compute_tracking_deterministic (e : TrackingEngine)
    (FA1 FA2 : List ℝ) (ev1 ev2 : List Point) (s1 s2 : ℕ)
    (a1 a2 m1 m2 M1 M2 : ℝ)
    (hFA : FA1 = FA2) (hev : ev1 = ev2) (hs : s1 = s2)
    (ha : a1 = a2) (hm : m1 = m2) (hM : M1 = M2) :
    compute_tracking e FA1 ev1 s1 a1 m1 M1 =
      compute_tracking e FA2 ev2 s2 a2 m2 M2 := by
  subst hFA hev hs ha hm hM
  rfl

theorem compute_tracking_deterministic_witness :
    compute_tracking const_engine [] [] 8 0 2 100 =
      compute_tracking const_engine [] [] 8 0 2 100 :=
  compute_tracking_deterministic const_engine [] [] [] [] 8 8 0 0 2 2 100 100
    rfl rfl rfl rfl rfl rfl

/-! ## Tensor reconstruction: fractional anisotropy (compute_reconstruction,
pipenode.py lines 178-207)

The tensor fit itself is external library code; its output is an
eigenvalue triple per voxel.  The FA formula of dipy.reconst.dti is the
square root of half the sum of squared pairwise eigenvalue differences
divided by the sum of squared eigenvalues; at an all-zero triple the
division is zero by zero, which in floating point yields NaN.  That is
embedded as an Option: none stands for the NaN produced at a degenerate
voxel, and the sanitization of line 194 maps none to zero. -/

/-- FA of one eigenvalue triple, as computed by fractional_anisotropy of
dipy.reconst.dti at line 193: none models the NaN obtained when the sum of
squared eigenvalues is zero. -/
noncomputable def fa_of_evals (l1 l2 l3 : ℝ) : Option ℝ :=
  if l1 ^ 2 + l2 ^ 2 + l3 ^ 2 = 0 then none
  else some (Real.sqrt (((l1 - l2) ^ 2 + (l2 - l3) ^ 2 + (l3 - l1) ^ 2) /
    (2 * (l1 ^ 2 + l2 ^ 2 + l3 ^ 2))))

/-- FA after the NaN sanitization of pipenode.py line 194, which replaces
every NaN entry of the FA array by zero. -/
noncomputable def sanitized_fa (l : ℝ × ℝ × ℝ) : ℝ :=
  (fa_of_evals l.1 l.2.1 l.2.2).getD 0

/-- The persisted FA volume: the sanitized FA value of every voxel of the
eigenvalue volume produced by the tensor fit. -/
noncomputable def fa_volume (evals : List (ℝ × ℝ × ℝ)) : List ℝ :=
  evals.map sanitized_fa

/-- Claim C4: over any eigenvalue volume whose triples are nonnegative,
which is what a valid tensor fit yields, every value of the persisted FA
volume after NaN sanitization lies in the closed interval from 0 to 1: no
entry is NaN (none survives the sanitization), negative, or above one. -/
theorem fa_volume_mem_unit_interval (evals : List (ℝ × ℝ × ℝ))
    (h : ∀ l ∈ evals, 0 ≤ l.1 ∧ 0 ≤ l.2.1 ∧ 0 ≤ l.2.2) :
    ∀ v ∈ fa_volume evals, 0 ≤ v ∧ v ≤ 1 := by
  intro v hv
  obtain ⟨l, hl, rfl⟩ := List.mem_map.mp hv
  obtain ⟨h1, h2, h3⟩ := h l hl
  obtain ⟨a, b, c⟩ := l
  simp only at h1 h2 h3
  unfold sanitized_fa fa_of_evals
  by_cases hz : a ^ 2 + b ^ 2 + c ^ 2 = 0
  · rw [if_pos hz]
    exact ⟨le_refl 0, zero_le_one⟩
  · rw [if_neg hz]
    simp only [Option.getD_some]
    have hpos : 0 < a ^ 2 + b ^ 2 + c ^ 2 :=
      lt_of_le_of_ne (by positivity) (Ne.symm hz)
    refine ⟨Real.sqrt_nonneg _, Real.sqrt_le_one.mpr ?_⟩
    rw [div_le_one (by positivity)]
    nlinarith [mul_nonneg h1 h2, mul_nonneg h2 h3, mul_nonneg h1 h3]

theorem fa_volume_mem_unit_interval_witness :
    0 ≤ sanitized_fa (0, 0, 0) ∧ sanitized_fa (0, 0, 0) ≤ 1 :=
  fa_volume_mem_unit_interval [(0, 0, 0)] (by simp)
    (sanitized_fa (0, 0, 0)) (by simp [fa_volume])

/-! ## Stage failure handling (rescaling_isotropic_voxel, pipenode.py
lines 133-149)

A stage body either succeeds or raises; what matters to the claims is the
observable effect of each handler: whether the FAIL diagnostic naming the
offending file was printed, whether the output file was written, and
whether the process was terminated.  The handler of
rescaling_isotropic_voxel ends with the bare expression exit, written
without parentheses: Python evaluates the name and discards the resulting
object without calling it, so the handler returns normally.  The sibling
stage eddy_current_correction instead calls sys.exit and does terminate;
both are embedded for comparison. -/

structure StageEffect where
  printed_fail : Bool
  wrote_output : Bool
  terminated : Bool
deriving DecidableEq

/-- Shallow embedding of rescaling_isotropic_voxel (pipenode.py lines
133-149) as a function of whether the try body succeeds.  On failure the
except handler prints the FAIL diagnostic with the offending source path
and then evaluates the bare name exit without calling it, so the function
returns and the process is not terminated. -/
def rescaling_isotropic_voxel (body_ok : Bool) : StageEffect :=
  if body_ok then { printed_fail := false, wrote_output := true, terminated := false }
  else { printed_fail := true, wrote_output := false, terminated := false }

/-- Shallow embedding of eddy_current_correction (pipenode.py lines
119-130), whose handler prints the diagnostic and then calls sys.exit,
terminating the process. -/
def eddy_current_correction (body_ok : Bool) : StageEffect :=
  if body_ok then { printed_fail := false, wrote_output := true, terminated := false }
  else { printed_fail := true, wrote_output := false, terminated := true }

/-- Claim C2: on a failing isotropic-resampling run the stage prints the
diagnostic naming the offending file, but, contrary to the claim, it does
not terminate the process, because the final statement of its handler is
the bare name exit rather than a call; execution therefore continues past
the failed stage, unlike the sibling stage eddy_current_correction whose
handler does terminate. -/
theorem rescaling_failure_does_not_terminate :
    (rescaling_isotropic_voxel false).printed_fail = true ∧
    (rescaling_isotropic_voxel false).terminated = false ∧
    (eddy_current_correction false).terminated = true := by
  decide

/-! ## Path joining

Model of os.path.join for two components, as used throughout pipenode.py:
an absolute second component replaces the first, an empty first component
or one already ending in the separator concatenates directly, and
otherwise a single separator is inserted. -/

def pjoin (a b : String) : String :=
  if b.data.take 1 = ['/'] then b
  else if a = "" then b
  else if a.data.reverse.take 1 = ['/'] then a ++ b
  else a ++ "/" ++ b

/-! ## DICOM conversion (dicom_to_nifti, pipenode.py lines 57-101)

The directory handed to and produced by the external converter is modelled
as a list of entries carrying a name and a creation time, and the file
operations of the stage become list transformations. -/

structure DirEntry where
  name : String
  ctime : ℤ
deriving DecidableEq

/-- Whether a file name matches the glob pattern *.nii, that is, ends with
the four characters of the .nii extension. -/
def matches_nii (s : String) : Bool :=
  s.data.reverse.take 4 == ['i', 'i', 'n', '.']

/-- The glob call of pipenode.py line 76: the entries of the output
directory whose names match *.nii, in directory order. -/
def glob_nii (dir : List DirEntry) : List DirEntry :=
  dir.filter (fun e => matches_nii e.name)

/-- The builtin min with a key function as Python evaluates it: starting
from the first element, a later element replaces the current minimum only
when its key is strictly smaller, so the first element attaining the
minimal key is returned; the empty list gives none (Python raises). -/
def pyMin (key : DirEntry → ℤ) : List DirEntry → Option DirEntry
  | [] => none
  | x :: xs => some (xs.foldl (fun acc y => if key y < key acc then y else acc) x)

/-- The selection of pipenode.py line 77: among the .nii files of the
output directory, the one with the minimal creation time, chosen by
min over os.path.getctime keys. -/
def select_new_file (dir : List DirEntry) : Option DirEntry :=
  pyMin (fun e => e.ctime) (glob_nii dir)

/-- Claim C3 (counterexample): in an output directory holding a.nii
created at time 5 and b.nii created at time 9, the selection of
dicom_to_nifti returns a.nii, although b.nii is a .nii file of the same
directory with a strictly later creation time; the selected file is
therefore not the most recently created one, refuting the claim. -/
theorem select_new_file_not_most_recent :
    select_new_file [⟨"a.nii", 5⟩, ⟨"b.nii", 9⟩] = some ⟨"a.nii", 5⟩ ∧
    DirEntry.mk "b.nii" 9 ∈ glob_nii [⟨"a.nii", 5⟩, ⟨"b.nii", 9⟩] ∧
    ¬ ∀ y ∈ glob_nii [⟨"a.nii", 5⟩, ⟨"b.nii", 9⟩], y.ctime ≤ (5 : ℤ) := by
  decide

theorem pyMin_foldl_mem (key : DirEntry → ℤ) (xs : List DirEntry) :
    ∀ acc : DirEntry,
      xs.foldl (fun a y => if key y < key a then y else a) acc = acc ∨
      xs.foldl (fun a y => if key y < key a then y else a) acc ∈ xs := by
  induction xs with
  | nil => intro acc; exact Or.inl rfl
  | cons z zs ih =>
    intro acc
    rw [List.foldl_cons]
    rcases ih (if key z < key acc then z else acc) with h | h
    · rw [h]
      by_cases hz : key z < key acc
      · rw [if_pos hz]; exact Or.inr (List.mem_cons_self z zs)
      · rw [if_neg hz]; exact Or.inl rfl
    · exact Or.inr (List.mem_cons_of_mem z h)

theorem pyMin_foldl_le (key : DirEntry → ℤ) (xs : List DirEntry) :
    ∀ acc : DirEntry,
      key (xs.foldl (fun a y => if key y < key a then y else a) acc) ≤ key acc ∧
      ∀ y ∈ xs, key (xs.foldl (fun a y => if key y < key a then y else a) acc) ≤ key y := by
  induction xs with
  | nil => intro acc; exact ⟨le_refl _, by simp⟩
  | cons z zs ih =>
    intro acc
    rw [List.foldl_cons]
    obtain ⟨h1, h2⟩ := ih (if key z < key acc then z else acc)
    have hacc : key (if key z < key acc then z else acc) ≤ key acc := by
      by_cases hz : key z < key acc
      · rw [if_pos hz]; exact le_of_lt hz
      · rw [if_neg hz]
    have hz2 : key (if key z < key acc then z else acc) ≤ key z := by
      by_cases hz : key z < key acc
      · rw [if_pos hz]
      · rw [if_neg hz]; exact le_of_not_lt hz
    refine ⟨le_trans h1 hacc, ?_⟩
    intro y hy
    rcases List.mem_cons.mp hy with rfl | hy
    · exact le_trans h1 hz2
    · exact h2 y hy

/-- Claim C3 (amended): for every output-directory state with at least one
.nii file, the file selected by dicom_to_nifti is a .nii file of the
directory whose creation time is minimal among all .nii files there: the
earliest-created one, not the most recently created one. -/
theorem select_new_file_is_earliest (dir : List DirEntry)
    (h : glob_nii dir ≠ []) :
    (select_new_file dir).isSome = true ∧
    ∀ e, select_new_file dir = some e →
      e ∈ glob_nii dir ∧ ∀ y ∈ glob_nii dir, e.ctime ≤ y.ctime := by
  unfold select_new_file pyMin
  cases hg : glob_nii dir with
  | nil => exact absurd hg h
  | cons x xs =>
    refine ⟨rfl, ?_⟩
    intro e he
    have he2 : xs.foldl (fun a y => if y.ctime < a.ctime then y else a) x = e :=
      Option.some.inj he
    constructor
    · rcases pyMin_foldl_mem (fun e => e.ctime) xs x with hm | hm
      · rw [he2] at hm; rw [hm]; exact List.mem_cons_self x xs
      · rw [he2] at hm; exact List.mem_cons_of_mem x hm
    · intro y hy
      obtain ⟨h1, h2⟩ := pyMin_foldl_le (fun e => e.ctime) xs x
      rw [he2] at h1 h2
      rcases List.mem_cons.mp hy with rfl | hy
      · exact h1
      · exact h2 y hy

theorem select_new_file_is_earliest_witness :
    (select_new_file [⟨"a.nii", 5⟩, ⟨"b.nii", 9⟩]).isSome = true :=
  (select_new_file_is_earliest [⟨"a.nii", 5⟩, ⟨"b.nii", 9⟩] (by decide)).1

/-- The guarded deletion pattern of pipenode.py lines 60-65: remove the
path when it exists in the directory, otherwise leave the directory
unchanged. -/
def removeIfExists (p : String) (fs : List String) : List String :=
  if p ∈ fs then fs.erase p else fs

/-- The pre-clean step of dicom_to_nifti (pipenode.py lines 59-65), run
when both the source and the output directory are given: it deletes, in
order, the subject-and-tag .nii output, the subject .bval file and the
subject .bvec file from the output directory when they exist. -/
def dicom_preclean (outDir subj tag : String) (fs : List String) : List String :=
  removeIfExists (pjoin outDir (subj ++ ".bvec"))
    (removeIfExists (pjoin outDir (subj ++ ".bval"))
      (removeIfExists (pjoin outDir (subj ++ "_" ++ tag ++ ".nii")) fs))

theorem removeIfExists_nodup (p : String) (fs : List String) (h : fs.Nodup) :
    (removeIfExists p fs).Nodup := by
  unfold removeIfExists
  by_cases hp : p ∈ fs
  · rw [if_pos hp]; exact h.erase p
  · rw [if_neg hp]; exact h

theorem mem_removeIfExists (p a : String) (fs : List String) (h : fs.Nodup) :
    a ∈ removeIfExists p fs ↔ a ∈ fs ∧ a ≠ p := by
  unfold removeIfExists
  by_cases hp : p ∈ fs
  · rw [if_pos hp, h.mem_erase_iff]
    exact ⟨fun ⟨h1, h2⟩ => ⟨h2, h1⟩, fun ⟨h1, h2⟩ => ⟨h2, h1⟩⟩
  · rw [if_neg hp]
    constructor
    · intro ha
      refine ⟨ha, ?_⟩
      rintro rfl
      exact hp ha
    · exact fun ⟨h1, _⟩ => h1

theorem removeIfExists_sublist (p : String) (fs : List String) :
    (removeIfExists p fs).Sublist fs := by
  unfold removeIfExists
  by_cases hp : p ∈ fs
  · rw [if_pos hp]; exact fs.erase_sublist p
  · rw [if_neg hp]

/-- Claim C10: on a duplicate-free output directory, the pre-clean step of
dicom_to_nifti deletes exactly the files named with the subject-and-tag
.nii output name, the subject .bval name and the subject .bvec name, and
touches nothing else: the result is a sublist of the original directory,
and a path survives if and only if it was present and is none of those
three names. -/
theorem dicom_preclean_removes_exactly_three (outDir subj tag : String)
    (fs : List String) (h : fs.Nodup) :
    (dicom_preclean outDir subj tag fs).Sublist fs ∧
    ∀ p, p ∈ dicom_preclean outDir subj tag fs ↔
      p ∈ fs ∧ p ≠ pjoin outDir (subj ++ "_" ++ tag ++ ".nii") ∧
        p ≠ pjoin outDir (subj ++ ".bval") ∧ p ≠ pjoin outDir (subj ++ ".bvec") := by
  have h1 : (removeIfExists (pjoin outDir (subj ++ "_" ++ tag ++ ".nii")) fs).Nodup :=
    removeIfExists_nodup _ _ h
  have h2 : (removeIfExists (pjoin outDir (subj ++ ".bval"))
      (removeIfExists (pjoin outDir (subj ++ "_" ++ tag ++ ".nii")) fs)).Nodup :=
    removeIfExists_nodup _ _ h1
  constructor
  · exact ((removeIfExists_sublist _ _).trans
      (removeIfExists_sublist _ _)).trans (removeIfExists_sublist _ _)
  · intro p
    unfold dicom_preclean
    rw [mem_removeIfExists _ _ _ h2, mem_removeIfExists _ _ _ h1,
      mem_removeIfExists _ _ _ h]
    tauto

theorem dicom_preclean_removes_exactly_three_witness :
    "o/other.nii" ∈ dicom_preclean "o" "s" "t" ["o/s_t.nii", "o/other.nii"] ↔
      "o/other.nii" ∈ ["o/s_t.nii", "o/other.nii"] ∧
        "o/other.nii" ≠ pjoin "o" ("s" ++ "_" ++ "t" ++ ".nii") ∧
        "o/other.nii" ≠ pjoin "o" ("s" ++ ".bval") ∧
        "o/other.nii" ≠ pjoin "o" ("s" ++ ".bvec") :=
  (dicom_preclean_removes_exactly_three "o" "s" "t"
    ["o/s_t.nii", "o/other.nii"] (by decide)).2 "o/other.nii"

/-! ## Output naming (compute_tracking lines 233-243,
tractome_preprocessing lines 255-267)

The seed count is abbreviated into the output basename: divided by ten to
the sixth when above one hundred thousand and by ten to the third
otherwise, with a K or M marker chosen at the one-million boundary.
Integer division is the floor division of Python 2 on nonnegative
integers. -/

/-- Modelled from the spec: the constant par_trk_suffix of the
configuration module parameters.py, which is not part of the repository
source under src/; the naming convention of the spec fixes the trackable
output extension to .trk. -/
def par_trk_suffix : String := ".trk"

/-- The seed abbreviation of pipenode.py lines 233-235: an underscore, the
seed count divided by ten to the sixth when above ten to the fifth and by
ten to the third otherwise, and a K marker below one million or an M
marker from one million on. -/
def seed_tag (seeds : ℕ) : String :=
  "_" ++ toString (if seeds > 10 ^ 5 then seeds / 10 ^ 6 else seeds / 10 ^ 3) ++
    (if seeds < 10 ^ 6 then "K" else "M")

/-- The basename of the .trk output written by compute_tracking at line
243: the subject name, the seed abbreviation and the configured trackable
extension. -/
def tracking_trk_basename (subj : String) (seeds : ℕ) : String :=
  subj ++ seed_tag seeds ++ par_trk_suffix

/-- The .trk basename rebuilt independently by tractome_preprocessing at
lines 258-261 with a format string over the same seed arithmetic. -/
def preproc_trk_basename (subj : String) (seeds : ℕ) : String :=
  subj ++ "_" ++ toString (if seeds > 10 ^ 5 then seeds / 10 ^ 6 else seeds / 10 ^ 3) ++
    (if seeds < 10 ^ 6 then "K" else "M") ++ par_trk_suffix

/-- Model of os.path.splitext restricted to a bare file name, searching the
last dot from the right: the characters after and including the last dot
form the extension, unless every character before that dot is itself a
dot, in which case there is no extension.  The input is the reversed
character list; the result pairs the reversed extension with the reversed
stem. -/
def splitRevAux : List Char → Option (List Char × List Char)
  | [] => none
  | c :: rest =>
      if c = '.' then some ([c], rest)
      else (splitRevAux rest).map (fun pr => (c :: pr.1, pr.2))

/-- Model of os.path.splitext on a bare file name (no directory
separators), following the CPython implementation: split at the last dot
when some earlier character is not a dot, otherwise return the whole name
with an empty extension. -/
def splitext (s : String) : String × String :=
  match splitRevAux s.data.reverse with
  | none => (s, "")
  | some (extRev, stemRev) =>
      if stemRev.all (fun c => c = '.') then (s, "")
      else (String.mk stemRev.reverse, String.mk extRev.reverse)

/-- The .spa basename of tractome_preprocessing line 262: the stem of the
.trk basename with the .spa extension appended. -/
def preproc_spa_basename (subj : String) (seeds : ℕ) : String :=
  (splitext (preproc_trk_basename subj seeds)).1 ++ ".spa"

/-- The temporary output directory of tractome_preprocessing line 264. -/
def preproc_out_spa_dir (srcDir : String) : String :=
  pjoin srcDir ".temp"

/-- The full path of the persisted .spa record, line 267. -/
def preproc_out_spa_file (srcDir subj : String) (seeds : ℕ) : String :=
  pjoin (preproc_out_spa_dir srcDir) (preproc_spa_basename subj seeds)

theorem splitRevAux_append_trk (xs : List Char) :
    splitRevAux (('k' :: 'r' :: 't' :: '.' :: xs)) = some (['k', 'r', 't', '.'], xs) := by
  rw [splitRevAux, if_neg (by decide), splitRevAux, if_neg (by decide),
    splitRevAux, if_neg (by decide), splitRevAux, if_pos rfl]
  rfl

theorem splitext_chars_trk (xs : List Char) (hx : ∃ c ∈ xs, c ≠ '.') :
    splitext (String.mk (xs ++ ['.', 't', 'r', 'k'])) =
      (String.mk xs, String.mk ['.', 't', 'r', 'k']) := by
  have hrev : (String.mk (xs ++ ['.', 't', 'r', 'k'])).data.reverse =
      'k' :: 'r' :: 't' :: '.' :: xs.reverse := by
    simp
  have hall : (xs.reverse.all (fun c => c = '.')) = false := by
    obtain ⟨c, hc, hcne⟩ := hx
    rw [List.all_eq_false]
    exact ⟨c, List.mem_reverse.mpr hc, by simpa using hcne⟩
  rw [splitext, hrev, splitRevAux_append_trk]
  simp only [hall]
  rw [if_neg (by simp [hall])]
  simp

theorem seed_tag_data (seeds : ℕ) :
    (seed_tag seeds).data =
      '_' :: (toString (if seeds > 10 ^ 5 then seeds / 10 ^ 6 else seeds / 10 ^ 3) ++
        (if seeds < 10 ^ 6 then "K" else "M")).data := by
  rw [seed_tag, String.append_assoc]
  rfl

/-- Claim C9: for every subject name and seed count, the .trk basename
written by compute_tracking equals the .trk basename rebuilt by
tractome_preprocessing; the basename of the persisted .spa record is that
.trk basename with its extension replaced by .spa; and the record is
placed under the .temp subdirectory of the tracking output directory. -/
theorem trk_and_spa_basenames_agree (srcDir subj : String) (seeds : ℕ) :
    tracking_trk_basename subj seeds = preproc_trk_basename subj seeds ∧
    preproc_spa_basename subj seeds = subj ++ seed_tag seeds ++ ".spa" ∧
    preproc_out_spa_file srcDir subj seeds =
      pjoin (pjoin srcDir ".temp") (subj ++ seed_tag seeds ++ ".spa") := by
  have hbase : preproc_trk_basename subj seeds =
      (subj ++ seed_tag seeds) ++ par_trk_suffix := by
    rw [preproc_trk_basename, seed_tag]
    simp [String.append_assoc]
  have hdata : ((subj ++ seed_tag seeds) ++ par_trk_suffix).data =
      (subj ++ seed_tag seeds).data ++ ['.', 't', 'r', 'k'] := by
    rw [String.data_append]
    rfl
  have hx : ∃ c ∈ (subj ++ seed_tag seeds).data, c ≠ '.' := by
    refine ⟨'_', ?_, by decide⟩
    rw [String.data_append, seed_tag_data]
    exact List.mem_append_right _ (List.mem_cons_self _ _)
  have hsplit : splitext (preproc_trk_basename subj seeds) =
      (subj ++ seed_tag seeds, String.mk ['.', 't', 'r', 'k']) := by
    rw [hbase]
    have : (subj ++ seed_tag seeds) ++ par_trk_suffix =
        String.mk ((subj ++ seed_tag seeds).data ++ ['.', 't', 'r', 'k']) := by
      apply String.ext
      rw [hdata]
    rw [this, splitext_chars_trk _ hx]
  refine ⟨?_, ?_, ?_⟩
  · rw [tracking_trk_basename, hbase]
  · rw [preproc_spa_basename, hsplit]
  · rw [preproc_out_spa_file, preproc_out_spa_dir, preproc_spa_basename, hsplit]

/-! ## Dissimilarity projection (tractome_preprocessing, pipenode.py
lines 253-275) -/

/-- Modelled from the spec: compute_dissimilarity of the module
dissimilarity_common, which is not part of the repository source under
src/.  Per the spec, it selects a subset of prototype streamlines from the
full set according to the configured selection policy and prototype count,
then computes the distance of every streamline of the full set to every
prototype under the configured streamline-distance metric, assembling the
results into a dense matrix with one row per streamline and one column per
prototype. -/
def compute_dissimilarity (sls : List Streamline)
    (dist : Streamline → Streamline → ℝ)
    (policy : List Streamline → ℕ → List Streamline)
    (num_proto : ℕ) : List (List ℝ) :=
  sls.map (fun s => (policy sls num_proto).map (fun p => dist s p))

/-- The record pickled to the .spa file at pipenode.py lines 274-275: the
dissimilarity matrix under the key dismatrix and the configured prototype
count under the key nprot, serialized as one object. -/
structure SpaRecord where
  dismatrix : List (List ℝ)
  nprot : ℕ

/-- The record that tractome_preprocessing persists for a loaded
streamline set: the dissimilarity matrix of the set against the configured
policy, count and metric, together with the prototype count
par_prototype_num. -/
def tractome_spa_record (sls : List Streamline)
    (dist : Streamline → Streamline → ℝ)
    (policy : List Streamline → ℕ → List Streamline)
    (num_proto : ℕ) : SpaRecord :=
  { dismatrix := compute_dissimilarity sls dist policy num_proto
    nprot := num_proto }

/-- Claim C7: for an input set of N streamlines and a configured prototype
count P under a policy that yields exactly P prototypes, the single
persisted record holds a matrix of N rows each of width P, together with
the prototype count P itself. -/
theorem spa_record_shape (sls : List Streamline)
    (dist : Streamline → Streamline → ℝ)
    (policy : List Streamline → ℕ → List Streamline) (num_proto : ℕ)
    (hp : (policy sls num_proto).length = num_proto) :
    (tractome_spa_record sls dist policy num_proto).dismatrix.length = sls.length ∧
    (∀ row ∈ (tractome_spa_record sls dist policy num_proto).dismatrix,
      row.length = num_proto) ∧
    (tractome_spa_record sls dist policy num_proto).nprot = num_proto := by
  have hmat : (tractome_spa_record sls dist policy num_proto).dismatrix =
      sls.map (fun s => (policy sls num_proto).map (fun p => dist s p)) := rfl
  refine ⟨?_, ?_, rfl⟩
  · rw [hmat, List.length_map]
  · intro row hrow
    rw [hmat] at hrow
    obtain ⟨s, _, rfl⟩ := List.mem_map.mp hrow
    rw [List.length_map, hp]

theorem spa_record_shape_witness :
    (tractome_spa_record [sl_unit, sl_unit] (fun _ _ => 0)
        (fun l n => l.take n) 1).dismatrix.length = 2 ∧
    (tractome_spa_record [sl_unit, sl_unit] (fun _ _ => 0)
        (fun l n => l.take n) 1).nprot = 1 :=
  ⟨(spa_record_shape [sl_unit, sl_unit] (fun _ _ => 0)
      (fun l n => l.take n) 1 rfl).1,
   (spa_record_shape [sl_unit, sl_unit] (fun _ _ => 0)
      (fun l n => l.take n) 1 rfl).2.2⟩

/-! ## File-system effects of tractome_preprocessing (pipenode.py
lines 253-275)

The stage first creates the .temp output directory when it is absent
(lines 264-266), then reads the input .trk file (line 269) and only then
writes the .spa record (line 275).  A missing input file raises at the
read, propagating out of the stage after the directory was already
created. -/

structure FS where
  dirs : List String
  files : List String
deriving DecidableEq

/-- The file-system trace of tractome_preprocessing: the .temp directory
is created if absent, then the input .trk file is read; a missing input
raises, leaving the file system as it stands at that point (error case),
while a present input leads to the .spa record being written (ok case). -/
def tractome_fs (srcDir subj : String) (seeds : ℕ) (fs : FS) : Except FS FS :=
  let trkFile := pjoin srcDir (preproc_trk_basename subj seeds)
  let spaDir := preproc_out_spa_dir srcDir
  let fs1 : FS :=
    if spaDir ∈ fs.dirs then fs else { fs with dirs := spaDir :: fs.dirs }
  if trkFile ∈ fs1.files then
    Except.ok { fs1 with
      files := preproc_out_spa_file srcDir subj seeds :: fs1.files }
  else
    Except.error fs1

/-- Claim C8 (counterexample): called on a file system with no .temp
directory and no input .trk file, the stage fails, yet afterwards the
.temp directory exists although it did not exist before the call: the
stage does leave behind an entry it created despite failing. -/
theorem tractome_failure_leaves_temp_dir :
    tractome_fs "d" "s" 3000 ⟨[], []⟩ = Except.error ⟨["d/.temp"], []⟩ ∧
    "d/.temp" ∉ (FS.mk [] []).dirs := by
  constructor
  · rfl
  · simp

/-- Claim C8 (amended): whenever the input .trk file of
tractome_preprocessing is absent, the stage fails and writes no file: the
resulting file list is unchanged, and the only entry the stage may have
created is the .temp output directory, added before the failing read when
it was absent. -/
theorem tractome_missing_input_fails_after_mkdir (srcDir subj : String)
    (seeds : ℕ) (fs : FS)
    (h : pjoin srcDir (preproc_trk_basename subj seeds) ∉ fs.files) :
    tractome_fs srcDir subj seeds fs =
      Except.error
        { dirs :=
            if preproc_out_spa_dir srcDir ∈ fs.dirs then fs.dirs
            else preproc_out_spa_dir srcDir :: fs.dirs
          files := fs.files } := by
  rw [tractome_fs]
  by_cases hd : preproc_out_spa_dir srcDir ∈ fs.dirs
  · rw [if_pos hd, if_neg h, if_pos hd]
  · rw [if_neg hd]
    rw [show ({ fs with dirs := preproc_out_spa_dir srcDir :: fs.dirs } : FS).files
        = fs.files from rfl] at h ⊢
    rw [if_neg h, if_neg hd]

theorem tractome_missing_input_fails_after_mkdir_witness :
    tractome_fs "d" "s" 3000 ⟨[], []⟩ =
      Except.error
        { dirs :=
            if preproc_out_spa_dir "d" ∈ (FS.mk [] []).dirs then (FS.mk [] []).dirs
            else preproc_out_spa_dir "d" :: (FS.mk [] []).dirs
          files := (FS.mk [] []).files } :=
  tractome_missing_input_fails_after_mkdir "d" "s" 3000 ⟨[], []⟩ (by simp)

end APSS
